import Mathlib

/-
Verification of the gazette item-processing pipeline
(data_collection/gazette/pipelines.py): date gate, normalizer,
SQL metadata sink, files pipeline with extension sniffing, and the
filesystem store probe.  Machine text and byte contents are modelled as
Lean strings / lists of naturals; the external collaborators (scrapy
FilesPipeline driver, the filetype library, SQLAlchemy commit) are
modelled at the interface the code uses, as noted on each definition.
-/

namespace QueridoDiario

/-- Index (counted from the left) of the last occurrence of a character in a
list of characters, mirroring the rfind used by pathlib on path strings. -/
def rfindChar : List Char → Char → Option Nat
  | [], _ => none
  | x :: xs, c =>
    match rfindChar xs c with
    | some i => some (i + 1)
    | none => if x = c then some 0 else none

/-- Final path component (pathlib Path.name): the substring after the last
slash, or the whole string when it holds no slash. -/
def pathName (s : String) : String :=
  match rfindChar s.data '/' with
  | some i => String.mk (s.data.drop (i + 1))
  | none => s

/-- pathlib suffix of a single path component: the substring from the last
dot when that dot is neither the first nor the last character; empty
otherwise. -/
def nameSuffix (name : String) : String :=
  match rfindChar name.data '.' with
  | some i =>
    if 0 < i ∧ i + 1 < name.data.length then String.mk (name.data.drop i) else ""
  | none => ""

/-- pathlib Path.suffix of a path string: the suffix of its final component. -/
def pathSuffix (s : String) : String := nameSuffix (pathName s)

/-- Boolean list prefix test, used to model the glob pattern name-dot-star. -/
def isPrefixB : List Char → List Char → Bool
  | [], _ => true
  | _ :: _, [] => false
  | a :: as, b :: bs => a == b && isPrefixB as bs

/-- A calendar date as held by a Python datetime.date. -/
structure Date where
  year : Nat
  month : Nat
  day : Nat
deriving DecidableEq, Repr

/-- Python date ordering: lexicographic on (year, month, day). -/
def dateLtB (a b : Date) : Bool :=
  Nat.blt a.year b.year ||
    (Nat.beq a.year b.year &&
      (Nat.blt a.month b.month ||
        (Nat.beq a.month b.month && Nat.blt a.day b.day)))

/-- Python date comparison a greater-than b. -/
def dateGtB (a b : Date) : Bool := dateLtB b a

def digitChar : Nat → Char
  | 0 => '0'
  | 1 => '1'
  | 2 => '2'
  | 3 => '3'
  | 4 => '4'
  | 5 => '5'
  | 6 => '6'
  | 7 => '7'
  | 8 => '8'
  | _ => '9'

/-- Zero-padded two-digit decimal rendering, as printed by isoformat for the
in-range month, day, hour, minute and second fields. -/
def pad2 (n : Nat) : String := String.mk [digitChar (n / 10), digitChar (n % 10)]

/-- Zero-padded four-digit decimal rendering of the year field. -/
def pad4 (n : Nat) : String :=
  String.mk [digitChar (n / 1000), digitChar (n / 100 % 10),
    digitChar (n / 10 % 10), digitChar (n % 10)]

/-- Zero-padded six-digit decimal rendering of the microsecond field. -/
def pad6 (n : Nat) : String :=
  String.mk [digitChar (n / 100000), digitChar (n / 10000 % 10),
    digitChar (n / 1000 % 10), digitChar (n / 100 % 10),
    digitChar (n / 10 % 10), digitChar (n % 10)]

/-- Python str(date), i.e. date.isoformat(): YYYY-MM-DD. -/
def dateIso (d : Date) : String :=
  pad4 d.year ++ "-" ++ pad2 d.month ++ "-" ++ pad2 d.day

/-- A wall-clock instant as held by a Python datetime.datetime
(the naive UTC value returned by datetime.utcnow()). -/
structure DateTime where
  date : Date
  hour : Nat
  minute : Nat
  second : Nat
  usec : Nat
deriving DecidableEq, Repr

/-- Python datetime.isoformat(sep) with sep = T: the fractional part is
omitted entirely when the microsecond field is zero, and printed as six
digits otherwise. -/
def datetimeIsoT (t : DateTime) : String :=
  dateIso t.date ++ "T" ++ pad2 t.hour ++ ":" ++ pad2 t.minute ++ ":" ++
    pad2 t.second ++ (if t.usec = 0 then "" else "." ++ pad6 t.usec)

def digitVal (c : Char) : Option Nat :=
  if c.isDigit then some (c.toNat - 48) else none

def readDigitsAux : Nat → Nat → List Char → Option (Nat × List Char)
  | 0, acc, cs => some (acc, cs)
  | n + 1, acc, c :: cs =>
    match digitVal c with
    | some v => readDigitsAux n (acc * 10 + v) cs
    | none => none
  | _ + 1, _, [] => none

/-- Read exactly n decimal digits, returning their value and the rest. -/
def readDigits (n : Nat) (cs : List Char) : Option (Nat × List Char) :=
  readDigitsAux n 0 cs

def expectChar (c : Char) : List Char → Option (List Char)
  | x :: xs => if x = c then some xs else none
  | [] => none

/-- Take up to n leading decimal digits. -/
def takeDigits : Nat → List Char → List Char × List Char
  | 0, cs => ([], cs)
  | n + 1, c :: cs =>
    if c.isDigit then
      let (ds, rest) := takeDigits n cs
      (c :: ds, rest)
    else ([], c :: cs)
  | _ + 1, [] => ([], [])

def digitsToNat (ds : List Char) : Nat :=
  ds.foldl (fun acc c => acc * 10 + (c.toNat - 48)) 0

def isLeap (y : Nat) : Bool := (y % 4 == 0 && y % 100 != 0) || y % 400 == 0

def daysInMonth (y m : Nat) : Nat :=
  if m == 2 then (if isLeap y then 29 else 28)
  else if m == 4 || m == 6 || m == 9 || m == 11 then 30
  else 31

/-- The calendar validity enforced by strptime together with the datetime
constructor: year in 1..9999 (the Python date range), month in 1..12, day
in 1..days-of-month. -/
def validDateB (y m d : Nat) : Bool :=
  Nat.ble 1 y && Nat.ble y 9999 && Nat.ble 1 m && Nat.ble m 12 &&
    Nat.ble 1 d && Nat.ble d (daysInMonth y m)

/-- Time-of-day validity enforced by the datetime constructor. -/
def validTimeB (h mi s : Nat) : Bool :=
  Nat.ble h 23 && Nat.ble mi 59 && Nat.ble s 59

/-- Model of datetime.strptime(s, "%Y-%m-%d").date() as called by the SQL
sink on the item date: four year digits, dash, two month digits, dash, two
day digits, end of input, then calendar validation.  (CPython also accepts
unpadded one-digit months and days; the values reaching this call are
always zero-padded, so that case is irrelevant here.) -/
def parseDateStr (s : String) : Option Date := do
  let (y, r1) ← readDigits 4 s.data
  let r2 ← expectChar '-' r1
  let (m, r3) ← readDigits 2 r2
  let r4 ← expectChar '-' r3
  let (d, r5) ← readDigits 2 r4
  if r5.isEmpty && validDateB y m d then some ⟨y, m, d⟩ else none

/-- Model of datetime.strptime(s, "%Y-%m-%dT%H:%M:%S.%fZ") as called by the
SQL sink on the scraped-at stamp.  The format demands a literal dot followed
by one to six fraction digits before the literal Z; the fraction is
right-padded with zeros to microseconds.  A string with no fractional part
(as isoformat produces when the microsecond is zero) makes strptime raise;
here that is the none result. -/
def parseScrapedAt (s : String) : Option DateTime := do
  let (y, r1) ← readDigits 4 s.data
  let r2 ← expectChar '-' r1
  let (m, r3) ← readDigits 2 r2
  let r4 ← expectChar '-' r3
  let (d, r5) ← readDigits 2 r4
  let r6 ← expectChar 'T' r5
  let (h, r7) ← readDigits 2 r6
  let r8 ← expectChar ':' r7
  let (mi, r9) ← readDigits 2 r8
  let r10 ← expectChar ':' r9
  let (se, r11) ← readDigits 2 r10
  let r12 ← expectChar '.' r11
  let (ds, r13) := takeDigits 6 r12
  if ds.isEmpty then none
  else do
    let r14 ← expectChar 'Z' r13
    if r14.isEmpty && validDateB y m d && validTimeB h mi se then
      some ⟨⟨y, m, d⟩, h, mi, se, digitsToNat ds * 10 ^ (6 - ds.length)⟩
    else none

/-- One entry of the files field that the scrapy FilesPipeline attaches to an
item: resolution status, relative storage path, source url and checksum. -/
structure FileInfo where
  status : String
  path : String
  url : String
  checksum : String
deriving DecidableEq, Repr

/-- A gazette item as it arrives from a spider, before the normalizer runs:
the date is still a Python date object. -/
structure RawItem where
  source_text : String
  date : Date
  edition_number : String
  is_extra_edition : Bool
  power : String
deriving DecidableEq, Repr

/-- A gazette item after the normalizer: the date and the scrape stamp are
strings, the territory identifier is set, and the files field is the list
attached by the files pipeline. -/
structure Item where
  source_text : String
  date : String
  edition_number : String
  is_extra_edition : Bool
  power : String
  scraped_at : String
  territory_id : String
  files : List FileInfo
deriving DecidableEq, Repr

/-- One persisted row of the gazettes table (the Gazette model): the
normalized record fields plus one file path, url and checksum. -/
structure Gazette where
  source_text : String
  date : Date
  edition_number : String
  is_extra_edition : Bool
  power : String
  scraped_at : DateTime
  territory_id : String
  file_path : String
  file_url : String
  file_checksum : String
deriving DecidableEq, Repr

/-- The diagnostic context carried by the warning the SQL sink logs when a
commit fails: the record date and the file checksum. -/
structure LogEntry where
  date : Date
  file_checksum : String
deriving DecidableEq, Repr

namespace GazetteDateFilteringPipeline

/-- GazetteDateFilteringPipeline.process_item: when the spider carries a
start_date attribute (modelled as the some case) and start_date is greater
than the item date, raise DropItem (the error case); otherwise return the
item untouched. -/
def process_item (start_date : Option Date) (item : RawItem) :
    Except String RawItem :=
  match start_date with
  | some sd =>
    if dateGtB sd item.date then
      .error ("Droping all items before " ++ dateIso sd)
    else .ok item
  | none => .ok item

end GazetteDateFilteringPipeline

namespace DefaultValuesPipeline

/-- DefaultValuesPipeline.process_item: copies the spider TERRITORY_ID onto
the item, replaces the date with str(date), and stamps scraped_at with
datetime.utcnow().isoformat("T") + "Z".  The current instant is passed in
as the now argument. -/
def process_item (territoryId : String) (now : DateTime) (item : RawItem) :
    Item :=
  { source_text := item.source_text
    date := dateIso item.date
    edition_number := item.edition_number
    is_extra_edition := item.is_extra_edition
    power := item.power
    scraped_at := datetimeIsoT now ++ "Z"
    territory_id := territoryId
    files := [] }

end DefaultValuesPipeline

namespace SQLDatabasePipeline

/-- The Gazette row built from the item fields and one file entry, as the
dict updated in the loop body of process_item. -/
def mkGazette (item : Item) (d : Date) (sa : DateTime) (fi : FileInfo) :
    Gazette :=
  { source_text := item.source_text
    date := d
    edition_number := item.edition_number
    is_extra_edition := item.is_extra_edition
    power := item.power
    scraped_at := sa
    territory_id := item.territory_id
    file_path := fi.path
    file_url := fi.url
    file_checksum := fi.checksum }

/-- Whether open_spider creates a session factory: only when the database
url setting is present. -/
def open_spider_creates_session (databaseUrl : Option String) : Bool :=
  databaseUrl.isSome

/-- SQLDatabasePipeline.process_item.  databaseUrl none returns the item at
once.  Otherwise the date and scraped_at strings are re-parsed with strptime
(a failure there is the uncaught ValueError, the error case).  Then for each
file entry: a status equal to uptodate is skipped; otherwise a Gazette row
is built and committed in its own transaction.  The commitOk oracle models
whether session.commit() succeeds or raises SQLAlchemyError; on a failure
the sink logs the date and checksum and rolls the row back, then continues
with the next file.  The state is the list of committed rows; the warnings
are returned alongside. -/
def process_item (databaseUrl : Option String) (commitOk : Gazette → Bool)
    (db : List Gazette) (item : Item) :
    Except String (List Gazette × List LogEntry × Item) :=
  match databaseUrl with
  | none => .ok (db, [], item)
  | some _ =>
    match parseDateStr item.date, parseScrapedAt item.scraped_at with
    | some d, some sa =>
      let r := item.files.foldl
        (fun (acc : List Gazette × List LogEntry) file_info =>
          if file_info.status == "uptodate" then acc
          else
            let gazette := mkGazette item d sa file_info
            if commitOk gazette then (acc.1 ++ [gazette], acc.2)
            else (acc.1, acc.2 ++ [⟨d, file_info.checksum⟩]))
        (db, [])
      .ok (r.1, r.2, item)
    | _, _ => .error "ValueError: time data does not match format"

/-- A batch of items driven through the sink in order, as the crawl engine
does: an uncaught exception from one item (the error case) drops that item
but the batch moves on to the next one. -/
def run_batch (databaseUrl : Option String) (commitOk : Gazette → Bool)
    (db : List Gazette) : List Item → List Gazette × List LogEntry
  | [] => (db, [])
  | it :: rest =>
    match process_item databaseUrl commitOk db it with
    | .ok (db1, logs1, _) =>
      let r := run_batch databaseUrl commitOk db1 rest
      (r.1, logs1 ++ r.2)
    | .error _ => run_batch databaseUrl commitOk db rest

end SQLDatabasePipeline

namespace QueridoDiarioFilesPipeline

/-- Model of the default scrapy FilesPipeline.file_path (the super call):
full/ followed by the request-derived base name (the sha1 of the request
fingerprint) and, when the request url carries a recognized media
extension, that extension.  The base name and the url extension are carried
on the request model as the deterministic functions of the request they
are. -/
def superFilePath (baseName : String) (urlExt : Option String) : String :=
  "full/" ++ baseName ++ (match urlExt with | some e => "." ++ e | none => "")

/-- Model of filetype.guess from the filetype library (external dependency):
the buffer is matched against the known leading-byte signatures and the
first match gives the type; a representative subset of the signature table
(pdf, png, jpg, gif) suffices for this development. -/
def filetypeGuess (bs : List Nat) : Option String :=
  if ([0x25, 0x50, 0x44, 0x46].isPrefixOf bs) then some "pdf"
  else if ([0x89, 0x50, 0x4E, 0x47].isPrefixOf bs) then some "png"
  else if ([0xFF, 0xD8, 0xFF].isPrefixOf bs) then some "jpg"
  else if ([0x47, 0x49, 0x46].isPrefixOf bs) then some "gif"
  else none

/-- QueridoDiarioFilesPipeline._detect_extension: feed the first 261 bytes
of the response body to filetype.guess; empty string when the type cannot
be guessed, the extension otherwise. -/
def detect_extension (body : List Nat) : String :=
  let max_file_header_size := 261
  match filetypeGuess (body.take max_file_header_size) with
  | none => ""
  | some kind => kind

/-- The filename part of QueridoDiarioFilesPipeline.file_path: the name of
the super path; when that name has no suffix and a response is present, a
detected extension is appended. -/
def fileNameOf (baseName : String) (urlExt : Option String)
    (response : Option (List Nat)) : String :=
  let filepath := superFilePath baseName urlExt
  let filename := pathName filepath
  if nameSuffix (pathName filepath) = "" then
    match response with
    | some body =>
      let extension := detect_extension body
      if extension = "" then filename else filename ++ "." ++ extension
    | none => filename
  else filename

/-- QueridoDiarioFilesPipeline.file_path: the territory identifier and the
gazette date replace the full/ directory of the default path, giving
territory/date/filename. -/
def file_path (territoryId gazetteDate baseName : String)
    (urlExt : Option String) (response : Option (List Nat)) : String :=
  territoryId ++ "/" ++ gazetteDate ++ "/" ++ fileNameOf baseName urlExt response

end QueridoDiarioFilesPipeline

/-- A file present under the storage root, split as the store splits a
relative path: the directory part (territory/date) and the file name.  The
code joins the parts with a slash and pathlib splits them back; since the
stored names never hold a slash the split is exact, so the model keeps the
two components. -/
structure StoredFile where
  dir : String
  name : String
deriving DecidableEq, Repr

namespace QueridoDiarioFSFilesStore

/-- QueridoDiarioFSFilesStore._find_file: glob the parent directory for
name-dot-anything; when some file matches, answer its name (the first glob
hit), otherwise the name unchanged. -/
def find_file (store : List StoredFile) (dir name : String) : String :=
  match store.filter
      (fun f => f.dir == dir && isPrefixB (name ++ ".").data f.name.data) with
  | [] => name
  | f :: _ => f.name

/-- The path component that stat_file actually checks on disk: the exact
name when the probe path carries a suffix, otherwise the _find_file
resolution. -/
def stat_file_name (store : List StoredFile) (dir name : String) : String :=
  if nameSuffix name ≠ "" then name else find_file store dir name

/-- Whether the os.stat performed by the parent FSFilesStore.stat_file on
the resolved path finds a file, i.e. whether the probe treats the reference
as already present. -/
def stat_file_found (store : List StoredFile) (dir name : String) : Bool :=
  store.any (fun f => f.dir == dir && f.name == stat_file_name store dir name)

end QueridoDiarioFSFilesStore

/-- One remote file reference of an item, with the request-derived values
the pipeline consumes: the deterministic base name (sha1 of the request
fingerprint), the media extension taken from the url when it has one, the
body the download would return, and its checksum. -/
structure FileRef where
  url : String
  baseName : String
  urlExt : Option String
  body : List Nat
  checksum : String
deriving DecidableEq, Repr

/-- Model of the scrapy FilesPipeline driver (media_to_download together
with media_downloaded) specialized by the overrides of this repository:
the probe path is computed by file_path without a response, the store
probe is QueridoDiarioFSFilesStore.stat_file, and a fresh (non-expired)
stat hit yields an uptodate result carrying that probe path, while a miss
downloads, persists at the path computed with the response, and yields a
downloaded result.  Expiry ages are not modelled (the storage root is
unchanged between the runs considered here), and the checksum of a stored
file equals the checksum of the body that produced it. -/
def runRef (territoryId gazetteDate : String) (store : List StoredFile)
    (r : FileRef) : List StoredFile × FileInfo :=
  let dir := territoryId ++ "/" ++ gazetteDate
  let probe := QueridoDiarioFilesPipeline.fileNameOf r.baseName r.urlExt none
  if QueridoDiarioFSFilesStore.stat_file_found store dir probe then
    (store, ⟨"uptodate", dir ++ "/" ++ probe, r.url, r.checksum⟩)
  else
    let stored := QueridoDiarioFilesPipeline.fileNameOf r.baseName r.urlExt (some r.body)
    (store ++ [⟨dir, stored⟩], ⟨"downloaded", dir ++ "/" ++ stored, r.url, r.checksum⟩)

/-- The references of one item resolved in order against the store. -/
def runRefs (territoryId gazetteDate : String) (store : List StoredFile) :
    List FileRef → List StoredFile × List FileInfo
  | [] => (store, [])
  | r :: rest =>
    let s1 := runRef territoryId gazetteDate store r
    let s2 := runRefs territoryId gazetteDate s1.1 rest
    (s2.1, s1.2 :: s2.2)

/-- The content store followed by the metadata sink on one item: the files
pipeline fills the files field, then SQLDatabasePipeline.process_item runs
on the result. -/
def runItemFull (databaseUrl : Option String) (commitOk : Gazette → Bool)
    (territoryId gazetteDate : String) (store : List StoredFile)
    (db : List Gazette) (item : Item) (refs : List FileRef) :
    List StoredFile ×
      Except String (List Gazette × List LogEntry × Item) :=
  let s := runRefs territoryId gazetteDate store refs
  let item1 := { item with files := s.2 }
  (s.1, SQLDatabasePipeline.process_item databaseUrl commitOk db item1)

/-- A well-formed name component: non-empty and free of dots and slashes.
The request-derived base names are sha1 hex digests and the recognized
media extensions are short alphanumeric words, so both satisfy this. -/
def wfName (s : String) : Prop :=
  s.data ≠ [] ∧ ∀ ch ∈ s.data, ch ≠ '.' ∧ ch ≠ '/'

/-- Well-formedness of a file reference: its base name and, when present,
its url extension are well-formed name components. -/
def wfRef (r : FileRef) : Prop :=
  wfName r.baseName ∧ ∀ e, r.urlExt = some e → wfName e

/-- The probe filename of a reference: the filename part of file_path when
no response is available (the stat probe of the driver). -/
def probeOf (r : FileRef) : String :=
  QueridoDiarioFilesPipeline.fileNameOf r.baseName r.urlExt none

end QueridoDiario

open QueridoDiario

theorem rfindChar_eq_none {l : List Char} {c : Char} (h : ∀ x ∈ l, x ≠ c) :
    rfindChar l c = none := by
  induction l with
  | nil => rfl
  | cons x xs ih =>
    have hx : x ≠ c := h x (List.mem_cons_self x xs)
    have : rfindChar xs c = none := ih fun y hy => h y (List.mem_cons_of_mem x hy)
    simp [rfindChar, this, hx]

theorem rfindChar_append_of_none {l₁ l₂ : List Char} {c : Char}
    (h : rfindChar l₂ c = none) : rfindChar (l₁ ++ l₂) c = rfindChar l₁ c := by
  induction l₁ with
  | nil => simpa using h
  | cons x xs ih => simp [rfindChar, ih]

theorem rfindChar_append_some {l₁ l₂ : List Char} {c : Char} {j : Nat}
    (h : rfindChar l₂ c = some j) :
    rfindChar (l₁ ++ l₂) c = some (l₁.length + j) := by
  induction l₁ with
  | nil => simpa using h
  | cons x xs ih =>
    simp [rfindChar, ih]
    omega

theorem rfindChar_singleton_self (c : Char) : rfindChar [c] c = some 0 := by
  simp [rfindChar]

theorem pathName_eq {s : String} {l₁ l₂ : List Char}
    (hs : s.data = l₁ ++ '/' :: l₂) (h : ∀ ch ∈ l₂, ch ≠ '/') :
    pathName s = String.mk l₂ := by
  have hnone : rfindChar l₂ '/' = none := rfindChar_eq_none h
  have hfind : rfindChar s.data '/' = some l₁.length := by
    rw [hs, show l₁ ++ '/' :: l₂ = (l₁ ++ ['/']) ++ l₂ by simp,
      rfindChar_append_of_none hnone, rfindChar_append_some (rfindChar_singleton_self '/')]
    simp
  have hdrop : s.data.drop (l₁.length + 1) = l₂ := by
    rw [hs, show l₁ ++ '/' :: l₂ = (l₁ ++ ['/']) ++ l₂ by simp,
      show l₁.length + 1 = (l₁ ++ ['/']).length by simp]
    exact List.drop_left _ _
  rw [pathName, hfind]
  simp [hdrop, String.mk]

theorem pathName_no_slash {s : String} (h : ∀ ch ∈ s.data, ch ≠ '/') :
    pathName s = s := by
  rw [pathName, rfindChar_eq_none h]

theorem nameSuffix_no_dot {s : String} (h : ∀ ch ∈ s.data, ch ≠ '.') :
    nameSuffix s = "" := by
  rw [nameSuffix, rfindChar_eq_none h]

theorem nameSuffix_ext {s : String} {b e : List Char}
    (hs : s.data = b ++ '.' :: e) (hb : b ≠ []) (he : e ≠ [])
    (hed : ∀ ch ∈ e, ch ≠ '.') :
    nameSuffix s = String.mk ('.' :: e) := by
  have hnone : rfindChar e '.' = none := rfindChar_eq_none hed
  have hfind : rfindChar s.data '.' = some b.length := by
    rw [hs, show b ++ '.' :: e = (b ++ ['.']) ++ e by simp,
      rfindChar_append_of_none hnone, rfindChar_append_some (rfindChar_singleton_self '.')]
    simp
  have hlt : 0 < b.length := List.length_pos.mpr hb
  have hlen : b.length + 1 < s.data.length := by
    rw [hs]
    simp [List.length_append]
    have : 0 < e.length := List.length_pos.mpr he
    omega
  have hdrop : s.data.drop b.length = '.' :: e := by
    rw [hs]
    have : b ++ '.' :: e = b ++ ('.' :: e) := rfl
    rw [this, List.drop_append_of_le_length (Nat.le_refl _), List.drop_length]
    simp
  rw [nameSuffix, hfind]
  simp [hlt, hlen, hdrop, String.mk]
  intro hcon
  exfalso
  have hsl : s.length = s.data.length := rfl
  omega

theorem isPrefixB_append_self (l r : List Char) : isPrefixB l (l ++ r) = true := by
  induction l with
  | nil => rfl
  | cons x xs ih => simp [isPrefixB, ih]

theorem isPrefixB_iff_exists {p s : List Char} :
    isPrefixB p s = true ↔ ∃ r, s = p ++ r := by
  induction p generalizing s with
  | nil => simp [isPrefixB]
  | cons x xs ih =>
    cases s with
    | nil =>
      simp [isPrefixB]
    | cons y ys =>
      simp only [isPrefixB, Bool.and_eq_true, beq_iff_eq, ih, List.cons_append,
        List.cons.injEq]
      constructor
      · rintro ⟨hxy, r, hr⟩
        exact ⟨r, hxy.symm, hr⟩
      · rintro ⟨r, hxy, hr⟩
        exact ⟨hxy.symm, r, hr⟩

theorem data_append_ext (base e : String) :
    (base ++ "." ++ e).data = base.data ++ '.' :: e.data := by
  simp [String.data_append]

theorem superFilePath_data_none (base : String) :
    (QueridoDiarioFilesPipeline.superFilePath base none).data =
      ['f', 'u', 'l', 'l'] ++ '/' :: base.data := by
  simp [QueridoDiarioFilesPipeline.superFilePath, String.data_append,
    String.append_empty]

theorem superFilePath_data_some (base e : String) :
    (QueridoDiarioFilesPipeline.superFilePath base (some e)).data =
      ['f', 'u', 'l', 'l'] ++ '/' :: (base.data ++ '.' :: e.data) := by
  simp [QueridoDiarioFilesPipeline.superFilePath, String.data_append]

theorem superFilePath_pathName_none {base : String} (hb : wfName base) :
    pathName (QueridoDiarioFilesPipeline.superFilePath base none) = base := by
  have h := pathName_eq (superFilePath_data_none base)
    (fun ch hch => (hb.2 ch hch).2)
  rw [h]

theorem superFilePath_pathName_some {base e : String} (hb : wfName base)
    (he : wfName e) :
    pathName (QueridoDiarioFilesPipeline.superFilePath base (some e)) =
      base ++ "." ++ e := by
  have hfree : ∀ ch ∈ base.data ++ '.' :: e.data, ch ≠ '/' := by
    intro ch hch
    rcases List.mem_append.mp hch with h1 | h1
    · exact (hb.2 ch h1).2
    · rcases List.mem_cons.mp h1 with h2 | h2
      · rw [h2]; decide
      · exact (he.2 ch h2).2
  have h := pathName_eq (superFilePath_data_some base e) hfree
  rw [h]
  exact String.ext (by simp [data_append_ext])

theorem nameSuffix_base_ext {base e : String} (hb : wfName base)
    (he : wfName e) : nameSuffix (base ++ "." ++ e) = "." ++ e := by
  have h := nameSuffix_ext (data_append_ext base e) hb.1 he.1
    (fun ch hch => (he.2 ch hch).1)
  rw [h]
  exact String.ext (by simp [String.data_append])

theorem string_ne_empty_of_data_cons {s : String} {c : Char} {l : List Char}
    (h : s.data = c :: l) : s ≠ "" := by
  intro hcon
  rw [hcon] at h
  simp at h

theorem fileNameOf_some_ext {base e : String} (hb : wfName base)
    (he : wfName e) (resp : Option (List Nat)) :
    QueridoDiarioFilesPipeline.fileNameOf base (some e) resp =
      base ++ "." ++ e := by
  have hn := superFilePath_pathName_some hb he
  have hsufb : nameSuffix (base ++ "." ++ e) = "." ++ e :=
    nameSuffix_base_ext hb he
  have hne : ("." ++ e : String) ≠ "" :=
    string_ne_empty_of_data_cons (c := '.') (l := e.data)
      (by simp [String.data_append])
  rw [QueridoDiarioFilesPipeline.fileNameOf.eq_def]
  simp only [hn, hsufb]
  rw [if_neg hne]

theorem fileNameOf_none_probe {base : String} (hb : wfName base) :
    QueridoDiarioFilesPipeline.fileNameOf base none none = base := by
  have hn := superFilePath_pathName_none hb
  have hsufb : nameSuffix base = "" :=
    nameSuffix_no_dot (fun ch hch => (hb.2 ch hch).1)
  rw [QueridoDiarioFilesPipeline.fileNameOf.eq_def]
  simp only [hn, hsufb]
  simp

theorem fileNameOf_none_resp {base : String} (hb : wfName base)
    (body : List Nat) :
    QueridoDiarioFilesPipeline.fileNameOf base none (some body) =
      if QueridoDiarioFilesPipeline.detect_extension body = "" then base
      else base ++ "." ++ QueridoDiarioFilesPipeline.detect_extension body := by
  have hn := superFilePath_pathName_none hb
  have hsufb : nameSuffix base = "" :=
    nameSuffix_no_dot (fun ch hch => (hb.2 ch hch).1)
  rw [QueridoDiarioFilesPipeline.fileNameOf.eq_def]
  simp only [hn, hsufb]
  simp

theorem filetypeGuess_cases (bs : List Nat) :
    QueridoDiarioFilesPipeline.filetypeGuess bs = none ∨
      QueridoDiarioFilesPipeline.filetypeGuess bs = some "pdf" ∨
      QueridoDiarioFilesPipeline.filetypeGuess bs = some "png" ∨
      QueridoDiarioFilesPipeline.filetypeGuess bs = some "jpg" ∨
      QueridoDiarioFilesPipeline.filetypeGuess bs = some "gif" := by
  rw [QueridoDiarioFilesPipeline.filetypeGuess]
  split_ifs <;> simp

theorem detect_extension_wf (body : List Nat) :
    QueridoDiarioFilesPipeline.detect_extension body = "" ∨
      wfName (QueridoDiarioFilesPipeline.detect_extension body) := by
  rw [QueridoDiarioFilesPipeline.detect_extension]
  rcases filetypeGuess_cases (body.take 261) with h | h | h | h | h <;>
    simp [h, wfName]

theorem stat_file_name_exact (store : List StoredFile) (dir name : String)
    (h : nameSuffix name ≠ "") :
    QueridoDiarioFSFilesStore.stat_file_name store dir name = name := by
  rw [QueridoDiarioFSFilesStore.stat_file_name, if_pos h]

theorem find_file_resolves (store : List StoredFile) (dir name : String)
    (hex : ∃ f ∈ store, f.dir = dir ∧
      isPrefixB (name ++ ".").data f.name.data = true) :
    ∃ f ∈ store, f.dir = dir ∧
      isPrefixB (name ++ ".").data f.name.data = true ∧
      QueridoDiarioFSFilesStore.find_file store dir name = f.name := by
  obtain ⟨f, hf, hfd, hfp⟩ := hex
  rw [QueridoDiarioFSFilesStore.find_file]
  cases hfil : store.filter
      (fun g => g.dir == dir && isPrefixB (name ++ ".").data g.name.data) with
  | nil =>
    exfalso
    have hmem : f ∈ store.filter
        (fun g => g.dir == dir && isPrefixB (name ++ ".").data g.name.data) :=
      List.mem_filter.mpr ⟨hf, by
        simp only [Bool.and_eq_true, beq_iff_eq]
        exact ⟨hfd, hfp⟩⟩
    rw [hfil] at hmem
    simp at hmem
  | cons f0 fs =>
    have hmem : f0 ∈ store.filter
        (fun g => g.dir == dir && isPrefixB (name ++ ".").data g.name.data) := by
      rw [hfil]
      exact List.mem_cons_self f0 fs
    have h0 := List.mem_filter.mp hmem
    have h0p := h0.2
    simp only [Bool.and_eq_true, beq_iff_eq] at h0p
    exact ⟨f0, h0.1, h0p.1, h0p.2, rfl⟩

theorem stat_file_found_iff (store : List StoredFile) (dir name : String) :
    QueridoDiarioFSFilesStore.stat_file_found store dir name = true ↔
      ∃ f ∈ store, f.dir = dir ∧
        (f.name = name ∨ (nameSuffix name = "" ∧
          isPrefixB (name ++ ".").data f.name.data = true)) := by
  rw [QueridoDiarioFSFilesStore.stat_file_found]
  by_cases hs : nameSuffix name = ""
  · rw [QueridoDiarioFSFilesStore.stat_file_name, if_neg (fun hcon => hcon hs)]
    rw [QueridoDiarioFSFilesStore.find_file]
    cases hfil : store.filter
        (fun g => g.dir == dir && isPrefixB (name ++ ".").data g.name.data) with
    | nil =>
      simp only [List.any_eq_true, Bool.and_eq_true, beq_iff_eq]
      constructor
      · rintro ⟨f, hf, hfd, hfn⟩
        exact ⟨f, hf, hfd, Or.inl hfn⟩
      · rintro ⟨f, hf, hfd, hfn | ⟨-, hpre⟩⟩
        · exact ⟨f, hf, hfd, hfn⟩
        · exfalso
          have hmem : f ∈ store.filter
              (fun g => g.dir == dir &&
                isPrefixB (name ++ ".").data g.name.data) :=
            List.mem_filter.mpr ⟨hf, by
              simp only [Bool.and_eq_true, beq_iff_eq]
              exact ⟨hfd, hpre⟩⟩
          rw [hfil] at hmem
          simp at hmem
    | cons f0 fs =>
      have hmem : f0 ∈ store.filter
          (fun g => g.dir == dir && isPrefixB (name ++ ".").data g.name.data) := by
        rw [hfil]
        exact List.mem_cons_self f0 fs
      have h0 := List.mem_filter.mp hmem
      have h0p := h0.2
      simp only [Bool.and_eq_true, beq_iff_eq] at h0p
      simp only [List.any_eq_true, Bool.and_eq_true, beq_iff_eq]
      constructor
      · rintro ⟨f, hf, hfd, hfn⟩
        exact ⟨f, hf, hfd, Or.inr ⟨hs, by rw [hfn]; exact h0p.2⟩⟩
      · rintro -
        exact ⟨f0, h0.1, h0p.1, rfl⟩
  · rw [QueridoDiarioFSFilesStore.stat_file_name, if_pos hs]
    simp only [List.any_eq_true, Bool.and_eq_true, beq_iff_eq]
    constructor
    · rintro ⟨f, hf, hfd, hfn⟩
      exact ⟨f, hf, hfd, Or.inl hfn⟩
    · rintro ⟨f, hf, hfd, hfn | ⟨hcon, -⟩⟩
      · exact ⟨f, hf, hfd, hfn⟩
      · exact absurd hcon hs

theorem detect_extension_take (body : List Nat) :
    QueridoDiarioFilesPipeline.detect_extension body =
      QueridoDiarioFilesPipeline.detect_extension (body.take 261) := by
  rw [QueridoDiarioFilesPipeline.detect_extension,
    QueridoDiarioFilesPipeline.detect_extension]
  simp [List.take_take]

theorem sink_foldl_eq (commitOk : Gazette → Bool) (item : Item) (d : Date)
    (sa : DateTime) (files : List FileInfo) :
    ∀ (rows : List Gazette) (logs : List LogEntry),
      files.foldl
        (fun (acc : List Gazette × List LogEntry) file_info =>
          if file_info.status == "uptodate" then acc
          else
            let gazette := SQLDatabasePipeline.mkGazette item d sa file_info
            if commitOk gazette then (acc.1 ++ [gazette], acc.2)
            else (acc.1, acc.2 ++ [⟨d, file_info.checksum⟩]))
        (rows, logs) =
      (rows ++ (files.filter (fun fi => !(fi.status == "uptodate") &&
          commitOk (SQLDatabasePipeline.mkGazette item d sa fi))).map
          (SQLDatabasePipeline.mkGazette item d sa),
       logs ++ (files.filter (fun fi => !(fi.status == "uptodate") &&
          !(commitOk (SQLDatabasePipeline.mkGazette item d sa fi)))).map
          (fun fi => (⟨d, fi.checksum⟩ : LogEntry))) := by
  induction files with
  | nil => intro rows logs; simp
  | cons fi rest ih =>
    intro rows logs
    cases h1 : (fi.status == "uptodate") with
    | true =>
      have hgoal := ih rows logs
      simp only [List.foldl_cons, List.filter_cons, h1]
      simpa using hgoal
    | false =>
      cases hc : commitOk (SQLDatabasePipeline.mkGazette item d sa fi) with
      | true =>
        have hgoal := ih (rows ++ [SQLDatabasePipeline.mkGazette item d sa fi]) logs
        simp only [List.foldl_cons, List.filter_cons, h1, hc]
        simpa [List.append_assoc] using hgoal
      | false =>
        have hgoal := ih rows (logs ++ [(⟨d, fi.checksum⟩ : LogEntry)])
        simp only [List.foldl_cons, List.filter_cons, h1, hc]
        simpa [List.append_assoc] using hgoal

theorem process_item_sql_eq (u : String) (commitOk : Gazette → Bool)
    (db : List Gazette) (item : Item) (d : Date) (sa : DateTime)
    (hd : parseDateStr item.date = some d)
    (hs : parseScrapedAt item.scraped_at = some sa) :
    SQLDatabasePipeline.process_item (some u) commitOk db item =
      .ok (db ++ (item.files.filter (fun fi => !(fi.status == "uptodate") &&
            commitOk (SQLDatabasePipeline.mkGazette item d sa fi))).map
            (SQLDatabasePipeline.mkGazette item d sa),
          (item.files.filter (fun fi => !(fi.status == "uptodate") &&
            !(commitOk (SQLDatabasePipeline.mkGazette item d sa fi)))).map
            (fun fi => (⟨d, fi.checksum⟩ : LogEntry)),
          item) := by
  rw [SQLDatabasePipeline.process_item.eq_def]
  simp only [hd, hs]
  rw [sink_foldl_eq]
  simp

theorem runRef_store_suffix (t d : String) (store : List StoredFile)
    (r : FileRef) :
    ∃ delta, (runRef t d store r).1 = store ++ delta := by
  rw [runRef]
  by_cases hfound : QueridoDiarioFSFilesStore.stat_file_found store
      (t ++ "/" ++ d)
      (QueridoDiarioFilesPipeline.fileNameOf r.baseName r.urlExt none) = true
  · exact ⟨[], by simp [hfound]⟩
  · have hb : QueridoDiarioFSFilesStore.stat_file_found store
        (t ++ "/" ++ d)
        (QueridoDiarioFilesPipeline.fileNameOf r.baseName r.urlExt none) = false := by
      rwa [Bool.not_eq_true] at hfound
    exact ⟨[⟨t ++ "/" ++ d,
      QueridoDiarioFilesPipeline.fileNameOf r.baseName r.urlExt (some r.body)⟩],
      by simp [hb]⟩

theorem runRefs_store_suffix (t d : String) (refs : List FileRef) :
    ∀ store : List StoredFile, ∃ delta, (runRefs t d store refs).1 = store ++ delta := by
  induction refs with
  | nil => intro store; exact ⟨[], by simp [runRefs]⟩
  | cons r0 rest ih =>
    intro store
    obtain ⟨d1, hd1⟩ := runRef_store_suffix t d store r0
    obtain ⟨d2, hd2⟩ := ih (runRef t d store r0).1
    refine ⟨d1 ++ d2, ?_⟩
    rw [runRefs]
    simp only []
    rw [hd2, hd1, List.append_assoc]

theorem stat_file_found_mono {store : List StoredFile} {dir name : String}
    (ext2 : List StoredFile)
    (h : QueridoDiarioFSFilesStore.stat_file_found store dir name = true) :
    QueridoDiarioFSFilesStore.stat_file_found (store ++ ext2) dir name = true := by
  rw [stat_file_found_iff] at h ⊢
  obtain ⟨f, hf, rest⟩ := h
  exact ⟨f, List.mem_append_left _ hf, rest⟩

theorem runRef_probe_found (t d : String) (store : List StoredFile)
    (r : FileRef) (hwf : wfRef r) :
    QueridoDiarioFSFilesStore.stat_file_found (runRef t d store r).1
      (t ++ "/" ++ d) (probeOf r) = true := by
  rw [runRef]
  by_cases hfound : QueridoDiarioFSFilesStore.stat_file_found store
      (t ++ "/" ++ d)
      (QueridoDiarioFilesPipeline.fileNameOf r.baseName r.urlExt none) = true
  · simp [hfound, probeOf]
  · have hb : QueridoDiarioFSFilesStore.stat_file_found store
        (t ++ "/" ++ d)
        (QueridoDiarioFilesPipeline.fileNameOf r.baseName r.urlExt none) = false := by
      rwa [Bool.not_eq_true] at hfound
    simp only [hb, Bool.false_eq_true, if_false]
    rw [stat_file_found_iff]
    have hbase := hwf.1
    rw [probeOf]
    cases hurl : r.urlExt with
    | some e =>
      have he := hwf.2 e hurl
      rw [fileNameOf_some_ext hbase he, fileNameOf_some_ext hbase he]
      exact ⟨⟨t ++ "/" ++ d, r.baseName ++ "." ++ e⟩,
        List.mem_append_right _ (List.mem_singleton.mpr rfl), rfl, Or.inl rfl⟩
    | none =>
      have hsufb : nameSuffix r.baseName = "" :=
        nameSuffix_no_dot (fun ch hch => (hbase.2 ch hch).1)
      rw [fileNameOf_none_probe hbase, fileNameOf_none_resp hbase]
      by_cases hdet : QueridoDiarioFilesPipeline.detect_extension r.body = ""
      · rw [if_pos hdet]
        exact ⟨⟨t ++ "/" ++ d, r.baseName⟩,
          List.mem_append_right _ (List.mem_singleton.mpr rfl), rfl, Or.inl rfl⟩
      · rw [if_neg hdet]
        refine ⟨⟨t ++ "/" ++ d, r.baseName ++ "." ++
          QueridoDiarioFilesPipeline.detect_extension r.body⟩,
          List.mem_append_right _ (List.mem_singleton.mpr rfl), rfl,
          Or.inr ⟨hsufb, ?_⟩⟩
        have hdata : (r.baseName ++ "." ++
            QueridoDiarioFilesPipeline.detect_extension r.body).data =
            (r.baseName ++ ".").data ++
              (QueridoDiarioFilesPipeline.detect_extension r.body).data := by
          simp [String.data_append]
        rw [hdata]
        exact isPrefixB_append_self _ _

theorem runRefs_probed (t d : String) (refs : List FileRef) :
    ∀ store : List StoredFile, (∀ r ∈ refs, wfRef r) →
      ∀ r ∈ refs,
        QueridoDiarioFSFilesStore.stat_file_found (runRefs t d store refs).1
          (t ++ "/" ++ d) (probeOf r) = true := by
  induction refs with
  | nil =>
    intro store hwf r hr
    cases hr
  | cons r0 rest ih =>
    intro store hwf r hr
    rw [runRefs]
    simp only []
    rcases List.mem_cons.mp hr with hr0 | hr2
    · obtain ⟨delta, hdelta⟩ := runRefs_store_suffix t d rest (runRef t d store r0).1
      rw [hdelta, hr0]
      exact stat_file_found_mono delta
        (runRef_probe_found t d store r0 (hwf r0 (List.mem_cons_self r0 rest)))
    · exact ih (runRef t d store r0).1
        (fun x hx => hwf x (List.mem_cons_of_mem r0 hx)) r hr2

theorem runRefs_all_found (t d : String) (refs : List FileRef) :
    ∀ store : List StoredFile,
      (∀ r ∈ refs, QueridoDiarioFSFilesStore.stat_file_found store
        (t ++ "/" ++ d) (probeOf r) = true) →
      runRefs t d store refs =
        (store, refs.map (fun r =>
          (⟨"uptodate", t ++ "/" ++ d ++ "/" ++ probeOf r, r.url,
            r.checksum⟩ : FileInfo))) := by
  induction refs with
  | nil => intro store h; rfl
  | cons r0 rest ih =>
    intro store h
    rw [runRefs]
    have h0 : QueridoDiarioFSFilesStore.stat_file_found store (t ++ "/" ++ d)
        (QueridoDiarioFilesPipeline.fileNameOf r0.baseName r0.urlExt none) = true := by
      have := h r0 (List.mem_cons_self r0 rest)
      rwa [probeOf] at this
    rw [runRef]
    simp only [h0, if_true]
    rw [ih store (fun x hx => h x (List.mem_cons_of_mem r0 hx))]
    simp [probeOf]

theorem digitVal_digitChar {n : Nat} (h : n < 10) :
    digitVal (digitChar n) = some n := by
  interval_cases n <;> decide

theorem readDigitsAux_step {n acc : Nat} {c : Char} {cs : List Char} {v : Nat}
    (h : digitVal c = some v) :
    readDigitsAux (n + 1) acc (c :: cs) = readDigitsAux n (acc * 10 + v) cs := by
  simp [readDigitsAux, h]

theorem readDigits4 {a b c d : Nat} (ha : a < 10) (hb : b < 10) (hc : c < 10)
    (hd : d < 10) (rest : List Char) :
    readDigits 4 (digitChar a :: digitChar b :: digitChar c :: digitChar d :: rest) =
      some (((a * 10 + b) * 10 + c) * 10 + d, rest) := by
  rw [readDigits,
    show (4 : Nat) = 3 + 1 from rfl, readDigitsAux_step (digitVal_digitChar ha),
    show (3 : Nat) = 2 + 1 from rfl, readDigitsAux_step (digitVal_digitChar hb),
    show (2 : Nat) = 1 + 1 from rfl, readDigitsAux_step (digitVal_digitChar hc),
    show (1 : Nat) = 0 + 1 from rfl, readDigitsAux_step (digitVal_digitChar hd)]
  simp [readDigitsAux]

theorem readDigits2 {a b : Nat} (ha : a < 10) (hb : b < 10) (rest : List Char) :
    readDigits 2 (digitChar a :: digitChar b :: rest) = some (a * 10 + b, rest) := by
  rw [readDigits,
    show (2 : Nat) = 1 + 1 from rfl, readDigitsAux_step (digitVal_digitChar ha),
    show (1 : Nat) = 0 + 1 from rfl, readDigitsAux_step (digitVal_digitChar hb)]
  simp [readDigitsAux]

theorem expectChar_cons_self (c : Char) (xs : List Char) :
    expectChar c (c :: xs) = some xs := by
  simp [expectChar]

theorem dateIso_data (y m d : Nat) :
    (dateIso ⟨y, m, d⟩).data =
      digitChar (y / 1000) :: digitChar (y / 100 % 10) :: digitChar (y / 10 % 10) ::
        digitChar (y % 10) :: '-' :: digitChar (m / 10) :: digitChar (m % 10) ::
        '-' :: digitChar (d / 10) :: digitChar (d % 10) :: [] := by
  simp [dateIso, pad4, pad2, String.data_append, String.mk]

theorem parseDateStr_dateIso {dt : Date}
    (h : validDateB dt.year dt.month dt.day = true) :
    parseDateStr (dateIso dt) = some dt := by
  obtain ⟨y, m, d⟩ := dt
  have hB := h
  simp only [validDateB, Bool.and_eq_true, Nat.ble_eq] at h
  obtain ⟨⟨⟨⟨⟨h1, h2⟩, h3⟩, h4⟩, h5⟩, h6⟩ := h
  have hd31 : d ≤ 31 := by
    have : daysInMonth y m ≤ 31 := by
      rw [daysInMonth]
      split_ifs <;> omega
    omega
  have hy1 : y / 1000 < 10 := by omega
  have hy2 : y / 100 % 10 < 10 := by omega
  have hy3 : y / 10 % 10 < 10 := by omega
  have hy4 : y % 10 < 10 := by omega
  have hm1 : m / 10 < 10 := by omega
  have hm2 : m % 10 < 10 := by omega
  have hdd1 : d / 10 < 10 := by omega
  have hdd2 : d % 10 < 10 := by omega
  have hyv : ((y / 1000 * 10 + y / 100 % 10) * 10 + y / 10 % 10) * 10 + y % 10 = y := by
    omega
  have hmv : m / 10 * 10 + m % 10 = m := by omega
  have hdv : d / 10 * 10 + d % 10 = d := by omega
  rw [parseDateStr, dateIso_data]
  rw [readDigits4 hy1 hy2 hy3 hy4]
  simp only [Option.bind_eq_bind, Option.some_bind]
  rw [expectChar_cons_self]
  simp only [Option.some_bind]
  rw [readDigits2 hm1 hm2]
  simp only [Option.some_bind]
  rw [expectChar_cons_self]
  simp only [Option.some_bind]
  rw [readDigits2 hdd1 hdd2]
  simp only [Option.some_bind]
  rw [hyv, hmv, hdv]
  simp [hB]

/-- C4: the date gate rejects (raises DropItem for) an item exactly when the
spider carries a configured start date and the item's publication date
strictly precedes it; otherwise, and always when no start date is
configured, the item is returned unchanged.  The model is pure, so no other
effect occurs in either case. -/
theorem claim_C4 :
    (∀ item : RawItem,
      GazetteDateFilteringPipeline.process_item none item = .ok item) ∧
    (∀ (sd : Date) (item : RawItem),
      GazetteDateFilteringPipeline.process_item (some sd) item =
        if dateLtB item.date sd then
          .error ("Droping all items before " ++ dateIso sd)
        else .ok item) ∧
    (∀ a b : Date, dateLtB a b = true ↔
      (a.year < b.year ∨ (a.year = b.year ∧ (a.month < b.month ∨
        (a.month = b.month ∧ a.day < b.day))))) := by
  refine ⟨fun item => rfl, fun sd item => rfl, fun a b => ?_⟩
  rw [dateLtB]
  simp [Nat.blt_eq, Bool.or_eq_true, Bool.and_eq_true, Nat.beq_eq_true_eq]

/-- Witness for C4 at a concrete input: an item dated strictly before the
configured start date is dropped with the start date in the message. -/
theorem claim_C4_witness :
    GazetteDateFilteringPipeline.process_item (some ⟨2024, 1, 5⟩)
      ⟨"s", ⟨2024, 1, 4⟩, "1", false, "executive"⟩ =
      .error ("Droping all items before 2024-01-05") := by
  have h := claim_C4.2.1 ⟨2024, 1, 5⟩ ⟨"s", ⟨2024, 1, 4⟩, "1", false, "executive"⟩
  rw [h, if_pos (by decide)]
  congr 1

/-- C8: with no database connection string the metadata sink is a no-op —
open_spider creates no session factory, every item is returned unchanged
with no row written and no warning logged — while the content store runs
exactly as it does with a configured database. -/
theorem claim_C8 (u : String) (commitOk : Gazette → Bool) (t d : String)
    (store : List StoredFile) (db : List Gazette) (item : Item)
    (refs : List FileRef) :
    (runItemFull none commitOk t d store db item refs).1 =
      (runItemFull (some u) commitOk t d store db item refs).1 ∧
    (runItemFull none commitOk t d store db item refs).2 =
      .ok (db, [], { item with files := (runRefs t d store refs).2 }) ∧
    SQLDatabasePipeline.open_spider_creates_session none = false ∧
    (∀ item2 : Item, SQLDatabasePipeline.process_item none commitOk db item2 =
      .ok (db, [], item2)) :=
  ⟨rfl, rfl, rfl, fun _ => rfl⟩

/-- C10 is a code bug: the normalizer stamps scraped_at with
isoformat plus Z, which omits the fractional part entirely whenever the
microsecond of the instant is zero, while the sink re-parses the stamp with
the fixed format %Y-%m-%dT%H:%M:%S.%fZ, which demands a dot and fraction
digits.  At the instant 2024-01-05 12:00:00.000000 UTC the stamp is
2024-01-05T12:00:00Z, its re-parse fails, and process_item raises the
ValueError instead of persisting the row; with any non-zero microsecond the
round-trip succeeds. -/
theorem claim_C10_bug :
    DefaultValuesPipeline.process_item "X" ⟨⟨2024, 1, 5⟩, 12, 0, 0, 0⟩
        ⟨"s", ⟨2024, 1, 5⟩, "1", false, "executive"⟩ =
      ⟨"s", "2024-01-05", "1", false, "executive",
        "2024-01-05T12:00:00Z", "X", []⟩ ∧
    parseScrapedAt "2024-01-05T12:00:00Z" = none ∧
    parseScrapedAt "2024-01-05T12:00:00.000001Z" =
      some ⟨⟨2024, 1, 5⟩, 12, 0, 0, 1⟩ ∧
    SQLDatabasePipeline.process_item (some "postgresql") (fun _ => true) []
        ⟨"s", "2024-01-05", "1", false, "executive",
          "2024-01-05T12:00:00Z", "X",
          [⟨"downloaded", "X/2024-01-05/abc123.pdf", "u", "c0"⟩]⟩ =
      .error "ValueError: time data does not match format" := by
  refine ⟨by decide, by decide, by decide, by rfl⟩

/-- C1: with persistence succeeding, the sink adds to the database exactly
one row per file entry whose status is downloaded — entries whose status is
uptodate (already present) are skipped and never produce a row — so the
number of rows added equals the number of non-already-present file entries
of the item, and no warning is logged. -/
theorem claim_C1 (u : String) (db : List Gazette) (item : Item) (d : Date)
    (sa : DateTime)
    (hd : parseDateStr item.date = some d)
    (hs : parseScrapedAt item.scraped_at = some sa)
    (hstatus : ∀ fi ∈ item.files,
      fi.status = "downloaded" ∨ fi.status = "uptodate") :
    SQLDatabasePipeline.process_item (some u) (fun _ => true) db item =
      .ok (db ++ (item.files.filter (fun fi => fi.status == "downloaded")).map
          (SQLDatabasePipeline.mkGazette item d sa), [], item) ∧
    ((item.files.filter (fun fi => fi.status == "downloaded")).map
        (SQLDatabasePipeline.mkGazette item d sa)).length =
      (item.files.filter (fun fi => !(fi.status == "uptodate"))).length := by
  have hflt : item.files.filter (fun fi => !(fi.status == "uptodate")) =
      item.files.filter (fun fi => fi.status == "downloaded") := by
    apply List.filter_congr
    intro fi hfi
    rcases hstatus fi hfi with h | h <;> simp [h]
  have heq := process_item_sql_eq u (fun _ => true) db item d sa hd hs
  simp only [Bool.and_true, Bool.not_true, Bool.and_false] at heq
  rw [hflt] at heq
  constructor
  · simpa using heq
  · rw [hflt]
    exact List.length_map _ _

/-- C2: for every item and any pattern of per-row commit failures, the sink
returns the item (a persistence failure is never fatal): each failing row
is logged with the record date and the file checksum and is rolled back
(absent from the database), every remaining non-already-present file of the
same item is still attempted, and the batch continues with the later items
from the state the item left behind. -/
theorem claim_C2 (u : String) (commitOk : Gazette → Bool) (db : List Gazette)
    (item : Item) (d : Date) (sa : DateTime) (rest : List Item)
    (hd : parseDateStr item.date = some d)
    (hs : parseScrapedAt item.scraped_at = some sa) :
    SQLDatabasePipeline.process_item (some u) commitOk db item =
      .ok (db ++ (item.files.filter (fun fi => !(fi.status == "uptodate") &&
            commitOk (SQLDatabasePipeline.mkGazette item d sa fi))).map
            (SQLDatabasePipeline.mkGazette item d sa),
        (item.files.filter (fun fi => !(fi.status == "uptodate") &&
            !(commitOk (SQLDatabasePipeline.mkGazette item d sa fi)))).map
            (fun fi => (⟨d, fi.checksum⟩ : LogEntry)),
        item) ∧
    SQLDatabasePipeline.run_batch (some u) commitOk db (item :: rest) =
      ((SQLDatabasePipeline.run_batch (some u) commitOk
          (db ++ (item.files.filter (fun fi => !(fi.status == "uptodate") &&
            commitOk (SQLDatabasePipeline.mkGazette item d sa fi))).map
            (SQLDatabasePipeline.mkGazette item d sa)) rest).1,
        (item.files.filter (fun fi => !(fi.status == "uptodate") &&
            !(commitOk (SQLDatabasePipeline.mkGazette item d sa fi)))).map
            (fun fi => (⟨d, fi.checksum⟩ : LogEntry)) ++
          (SQLDatabasePipeline.run_batch (some u) commitOk
            (db ++ (item.files.filter (fun fi => !(fi.status == "uptodate") &&
              commitOk (SQLDatabasePipeline.mkGazette item d sa fi))).map
              (SQLDatabasePipeline.mkGazette item d sa)) rest).2) := by
  have heq := process_item_sql_eq u commitOk db item d sa hd hs
  refine ⟨heq, ?_⟩
  rw [SQLDatabasePipeline.run_batch, heq]

/-- C9: the normalizer copies the spider territory identifier onto the
item, leaves the other record fields unchanged, re-serializes the
publication date to the canonical YYYY-MM-DD text (which the sink parses
back to the same date whenever the date is a valid Python date), and stamps
scraped_at with the current instant serialized with an explicit Z zone
marker, the date part, and the time of day down to seconds (plus
microseconds when non-zero).  The function is total: it returns an item
for every input. -/
theorem claim_C9 (territoryId : String) (now : DateTime) (item : RawItem) :
    (DefaultValuesPipeline.process_item territoryId now item).territory_id =
      territoryId ∧
    (DefaultValuesPipeline.process_item territoryId now item).source_text =
      item.source_text ∧
    (DefaultValuesPipeline.process_item territoryId now item).edition_number =
      item.edition_number ∧
    (DefaultValuesPipeline.process_item territoryId now item).is_extra_edition =
      item.is_extra_edition ∧
    (DefaultValuesPipeline.process_item territoryId now item).power =
      item.power ∧
    (DefaultValuesPipeline.process_item territoryId now item).date =
      dateIso item.date ∧
    (validDateB item.date.year item.date.month item.date.day = true →
      parseDateStr (DefaultValuesPipeline.process_item territoryId now item).date =
        some item.date) ∧
    (DefaultValuesPipeline.process_item territoryId now item).scraped_at =
      dateIso now.date ++ "T" ++ pad2 now.hour ++ ":" ++ pad2 now.minute ++
        ":" ++ pad2 now.second ++
        (if now.usec = 0 then "" else "." ++ pad6 now.usec) ++ "Z" ∧
    (∃ p, (DefaultValuesPipeline.process_item territoryId now item).scraped_at =
      p ++ "Z") := by
  refine ⟨rfl, rfl, rfl, rfl, rfl, rfl, ?_, ?_, ⟨datetimeIsoT now, rfl⟩⟩
  · intro hvalid
    exact parseDateStr_dateIso hvalid
  · rfl

/-- Witness for C9: concrete instantiation, with the date round-trip
discharged at the date 2024-01-05. -/
theorem claim_C9_witness :
    parseDateStr (DefaultValuesPipeline.process_item "X"
      ⟨⟨2024, 1, 5⟩, 12, 30, 59, 123456⟩
      ⟨"s", ⟨2024, 1, 5⟩, "1", false, "executive"⟩).date =
      some ⟨2024, 1, 5⟩ :=
  (claim_C9 "X" ⟨⟨2024, 1, 5⟩, 12, 30, 59, 123456⟩
    ⟨"s", ⟨2024, 1, 5⟩, "1", false, "executive"⟩).2.2.2.2.2.2.1 (by decide)

/-- Witness for C1: one downloaded and one already-present file entry; the
sink persists exactly the downloaded one. -/
theorem claim_C1_witness :
    SQLDatabasePipeline.process_item (some "postgresql") (fun _ => true) []
        ⟨"s", "2024-01-05", "1", false, "executive",
          "2024-01-05T12:00:00.123456Z", "X",
          [⟨"downloaded", "X/2024-01-05/abc123.pdf", "u", "c0"⟩,
           ⟨"uptodate", "X/2024-01-05/beef01.pdf", "u2", "c1"⟩]⟩ =
      .ok ([⟨"s", ⟨2024, 1, 5⟩, "1", false, "executive",
          ⟨⟨2024, 1, 5⟩, 12, 0, 0, 123456⟩, "X", "X/2024-01-05/abc123.pdf",
          "u", "c0"⟩], [],
        ⟨"s", "2024-01-05", "1", false, "executive",
          "2024-01-05T12:00:00.123456Z", "X",
          [⟨"downloaded", "X/2024-01-05/abc123.pdf", "u", "c0"⟩,
           ⟨"uptodate", "X/2024-01-05/beef01.pdf", "u2", "c1"⟩]⟩) := by
  have h := (claim_C1 "postgresql" []
    ⟨"s", "2024-01-05", "1", false, "executive",
      "2024-01-05T12:00:00.123456Z", "X",
      [⟨"downloaded", "X/2024-01-05/abc123.pdf", "u", "c0"⟩,
       ⟨"uptodate", "X/2024-01-05/beef01.pdf", "u2", "c1"⟩]⟩
    ⟨2024, 1, 5⟩ ⟨⟨2024, 1, 5⟩, 12, 0, 0, 123456⟩
    (by decide) (by decide) (by decide)).1
  exact h

/-- Witness for C2: the commit of the first downloaded row fails while the
second succeeds; the failure is logged with the date and checksum, its row
is rolled back, and the later file is still persisted. -/
theorem claim_C2_witness :
    SQLDatabasePipeline.process_item (some "postgresql")
        (fun g => g.file_checksum != "c0") []
        ⟨"s", "2024-01-05", "1", false, "executive",
          "2024-01-05T12:00:00.123456Z", "X",
          [⟨"downloaded", "X/2024-01-05/abc123.pdf", "u", "c0"⟩,
           ⟨"uptodate", "X/2024-01-05/beef01.pdf", "u2", "c1"⟩,
           ⟨"downloaded", "X/2024-01-05/cafe02.pdf", "u3", "c2"⟩]⟩ =
      .ok ([⟨"s", ⟨2024, 1, 5⟩, "1", false, "executive",
          ⟨⟨2024, 1, 5⟩, 12, 0, 0, 123456⟩, "X", "X/2024-01-05/cafe02.pdf",
          "u3", "c2"⟩],
        [⟨⟨2024, 1, 5⟩, "c0"⟩],
        ⟨"s", "2024-01-05", "1", false, "executive",
          "2024-01-05T12:00:00.123456Z", "X",
          [⟨"downloaded", "X/2024-01-05/abc123.pdf", "u", "c0"⟩,
           ⟨"uptodate", "X/2024-01-05/beef01.pdf", "u2", "c1"⟩,
           ⟨"downloaded", "X/2024-01-05/cafe02.pdf", "u3", "c2"⟩]⟩) := by
  have h := (claim_C2 "postgresql" (fun g => g.file_checksum != "c0") []
    ⟨"s", "2024-01-05", "1", false, "executive",
      "2024-01-05T12:00:00.123456Z", "X",
      [⟨"downloaded", "X/2024-01-05/abc123.pdf", "u", "c0"⟩,
       ⟨"uptodate", "X/2024-01-05/beef01.pdf", "u2", "c1"⟩,
       ⟨"downloaded", "X/2024-01-05/cafe02.pdf", "u3", "c2"⟩]⟩
    ⟨2024, 1, 5⟩ ⟨⟨2024, 1, 5⟩, 12, 0, 0, 123456⟩ []
    (by decide) (by decide)).1
  exact h

/-- C5: the storage path computed by the files pipeline is always
territory/date/basename with an optional dot-extension appended, and in
particular for territory X, date 2024-01-05, base name abc123 and a
response whose body carries the pdf signature, the path is
X/2024-01-05/abc123.pdf. -/
theorem claim_C5 (t d base : String) (urlExt : Option String)
    (resp : Option (List Nat)) (hb : wfName base)
    (he : ∀ e, urlExt = some e → wfName e) :
    (∃ ext, QueridoDiarioFilesPipeline.file_path t d base urlExt resp =
        t ++ "/" ++ d ++ "/" ++ (base ++ ext) ∧
      (ext = "" ∨ ∃ e2, e2 ≠ "" ∧ ext = "." ++ e2)) ∧
    QueridoDiarioFilesPipeline.file_path "X" "2024-01-05" "abc123" none
        (some [0x25, 0x50, 0x44, 0x46]) = "X/2024-01-05/abc123.pdf" := by
  constructor
  · rw [QueridoDiarioFilesPipeline.file_path]
    cases hurl : urlExt with
    | some e =>
      have hee := he e hurl
      have hene : e ≠ "" := fun hcon => hee.1 (by rw [hcon])
      refine ⟨"." ++ e, ?_, Or.inr ⟨e, hene, rfl⟩⟩
      rw [fileNameOf_some_ext hb hee resp]
      simp [String.append_assoc]
    | none =>
      cases resp with
      | none =>
        refine ⟨"", ?_, Or.inl rfl⟩
        rw [fileNameOf_none_probe hb, String.append_empty]
      | some body =>
        rw [fileNameOf_none_resp hb]
        by_cases hdet : QueridoDiarioFilesPipeline.detect_extension body = ""
        · rw [if_pos hdet]
          exact ⟨"", by rw [String.append_empty], Or.inl rfl⟩
        · rw [if_neg hdet]
          exact ⟨"." ++ QueridoDiarioFilesPipeline.detect_extension body,
            by simp [String.append_assoc], Or.inr ⟨_, hdet, rfl⟩⟩
  · decide

/-- Witness for C5: the general path shape at territory X, date 2024-01-05,
base name abc123, a url with extension pdf, and no response. -/
theorem claim_C5_witness :
    ∃ ext, QueridoDiarioFilesPipeline.file_path "X" "2024-01-05" "abc123"
        (some "pdf") none =
      "X" ++ "/" ++ "2024-01-05" ++ "/" ++ ("abc123" ++ ext) ∧
      (ext = "" ∨ ∃ e2, e2 ≠ "" ∧ ext = "." ++ e2) :=
  (claim_C5 "X" "2024-01-05" "abc123" (some "pdf") none
    (by constructor <;> decide)
    (fun e hec => by
      cases hec
      constructor <;> decide)).1

/-- C6: extension inference reads only the first 261 bytes of the body —
the detected extension of a body equals that of its 261-byte prefix; when
the signature table recognizes the prefix the stored filename is the base
name with the matching extension appended, and when it does not the file
is stored under the bare base name; a body whose leading bytes are the pdf
signature 0x25 0x50 0x44 0x46 is always detected as pdf. -/
theorem claim_C6 (base : String) (body : List Nat) (hb : wfName base) :
    (∀ body2 : List Nat, QueridoDiarioFilesPipeline.detect_extension body2 =
      QueridoDiarioFilesPipeline.detect_extension (body2.take 261)) ∧
    (∀ ext, QueridoDiarioFilesPipeline.filetypeGuess (body.take 261) = some ext →
      QueridoDiarioFilesPipeline.fileNameOf base none (some body) =
        base ++ "." ++ ext) ∧
    (QueridoDiarioFilesPipeline.filetypeGuess (body.take 261) = none →
      QueridoDiarioFilesPipeline.fileNameOf base none (some body) = base) ∧
    (∀ rest : List Nat, QueridoDiarioFilesPipeline.detect_extension
      ([0x25, 0x50, 0x44, 0x46] ++ rest) = "pdf") := by
  refine ⟨detect_extension_take, ?_, ?_, ?_⟩
  · intro ext hg
    have hdet : QueridoDiarioFilesPipeline.detect_extension body = ext := by
      rw [QueridoDiarioFilesPipeline.detect_extension, hg]
    have hne : ext ≠ "" := by
      rcases filetypeGuess_cases (body.take 261) with h | h | h | h | h <;>
        rw [h] at hg
      · cases hg
      all_goals
        injection hg with hh
        rw [← hh]
        decide
    rw [fileNameOf_none_resp hb, hdet, if_neg hne]
  · intro hg
    have hdet : QueridoDiarioFilesPipeline.detect_extension body = "" := by
      rw [QueridoDiarioFilesPipeline.detect_extension, hg]
    rw [fileNameOf_none_resp hb, hdet, if_pos rfl]
  · intro rest
    rw [QueridoDiarioFilesPipeline.detect_extension]
    have htake : ([0x25, 0x50, 0x44, 0x46] ++ rest).take 261 =
        [0x25, 0x50, 0x44, 0x46] ++ rest.take 257 := by
      rw [List.take_append_eq_append_take]
      norm_num
    have hpre : [0x25, 0x50, 0x44, 0x46].isPrefixOf
        ([0x25, 0x50, 0x44, 0x46] ++ rest.take 257) = true :=
      List.isPrefixOf_iff_prefix.mpr (List.prefix_append _ _)
    rw [htake, QueridoDiarioFilesPipeline.filetypeGuess, if_pos hpre]

/-- Witness for C6: with base name abc123 and a four-byte pdf body the
recognized case yields abc123.pdf, and an unrecognized body yields the
bare base name. -/
theorem claim_C6_witness :
    QueridoDiarioFilesPipeline.fileNameOf "abc123" none
        (some [0x25, 0x50, 0x44, 0x46]) = "abc123" ++ "." ++ "pdf" ∧
    QueridoDiarioFilesPipeline.fileNameOf "abc123" none (some [0, 1, 2]) =
      "abc123" := by
  constructor
  · exact (claim_C6 "abc123" [0x25, 0x50, 0x44, 0x46]
      (by constructor <;> decide)).2.1 "pdf" (by decide)
  · exact (claim_C6 "abc123" [0, 1, 2]
      (by constructor <;> decide)).2.2.1 (by decide)

/-- C7: when the probed path carries no suffix and the store holds, in the
same directory, a file whose name is the expected name followed by a dot
and anything, the probe resolves to such an existing file (the first glob
hit) and reports it as present; when the probed path carries a suffix the
probe checks exactly that path. -/
theorem claim_C7 (store : List StoredFile) (dir name : String) :
    (nameSuffix name = "" →
      (∃ f ∈ store, f.dir = dir ∧
        isPrefixB (name ++ ".").data f.name.data = true) →
      ∃ f ∈ store, f.dir = dir ∧
        isPrefixB (name ++ ".").data f.name.data = true ∧
        QueridoDiarioFSFilesStore.stat_file_name store dir name = f.name ∧
        QueridoDiarioFSFilesStore.stat_file_found store dir name = true) ∧
    (nameSuffix name ≠ "" →
      QueridoDiarioFSFilesStore.stat_file_name store dir name = name) := by
  constructor
  · intro hsuf hex
    obtain ⟨f, hf, hfd, hfp, hfe⟩ := find_file_resolves store dir name hex
    have hname : QueridoDiarioFSFilesStore.stat_file_name store dir name =
        f.name := by
      rw [QueridoDiarioFSFilesStore.stat_file_name,
        if_neg (fun hc => hc hsuf), hfe]
    refine ⟨f, hf, hfd, hfp, hname, ?_⟩
    rw [stat_file_found_iff]
    exact ⟨f, hf, hfd, Or.inr ⟨hsuf, hfp⟩⟩
  · intro hsuf
    exact stat_file_name_exact store dir name hsuf

/-- Witness for C7: probing the extensionless name abc123 against a store
holding X/2024-01-05/abc123.pdf resolves to abc123.pdf and reports the
reference as present. -/
theorem claim_C7_witness :
    ∃ f ∈ [(⟨"X/2024-01-05", "abc123.pdf"⟩ : StoredFile)],
      f.dir = "X/2024-01-05" ∧
      isPrefixB ("abc123" ++ ".").data f.name.data = true ∧
      QueridoDiarioFSFilesStore.stat_file_name
        [⟨"X/2024-01-05", "abc123.pdf"⟩] "X/2024-01-05" "abc123" = f.name ∧
      QueridoDiarioFSFilesStore.stat_file_found
        [⟨"X/2024-01-05", "abc123.pdf"⟩] "X/2024-01-05" "abc123" = true :=
  (claim_C7 [⟨"X/2024-01-05", "abc123.pdf"⟩] "X/2024-01-05" "abc123").1
    (by decide)
    ⟨⟨"X/2024-01-05", "abc123.pdf"⟩, by decide, by decide, by decide⟩

/-- C3 as stated is false at a url that carries no extension: the first run
downloads and stores the file under the sniffed extension
(X/2024-01-05/abc123.pdf) and reports that path in its file result, while
the second run resolves the reference as already present but reports the
probe path X/2024-01-05/abc123, which omits the sniffed extension — so the
file paths reported by the two runs are not identical. -/
theorem claim_C3_counterexample :
    (runRefs "X" "2024-01-05"
        (runRefs "X" "2024-01-05" []
          [⟨"http://example.com/doc", "abc123", none,
            [0x25, 0x50, 0x44, 0x46], "c0"⟩]).1
        [⟨"http://example.com/doc", "abc123", none,
          [0x25, 0x50, 0x44, 0x46], "c0"⟩]).2.map FileInfo.path ≠
      (runRefs "X" "2024-01-05" []
        [⟨"http://example.com/doc", "abc123", none,
          [0x25, 0x50, 0x44, 0x46], "c0"⟩]).2.map FileInfo.path := by
  decide

/-- C3 amended: re-running the content store on the same references with
the storage root left as the first run produced it stores no new file (the
on-disk paths are identical), resolves every reference as already present
(status uptodate, with the probe path — which omits a sniffed extension —
as the reported path), and the sink then adds zero rows and logs nothing
for the second run. -/
theorem claim_C3_amended (t d u : String) (commitOk : Gazette → Bool)
    (store0 : List StoredFile) (db : List Gazette) (item : Item)
    (refs : List FileRef) (dd : Date) (sa : DateTime)
    (hwf : ∀ r ∈ refs, wfRef r)
    (hd : parseDateStr item.date = some dd)
    (hs : parseScrapedAt item.scraped_at = some sa) :
    (runRefs t d (runRefs t d store0 refs).1 refs).1 =
      (runRefs t d store0 refs).1 ∧
    (runRefs t d (runRefs t d store0 refs).1 refs).2 =
      refs.map (fun r => (⟨"uptodate", t ++ "/" ++ d ++ "/" ++ probeOf r,
        r.url, r.checksum⟩ : FileInfo)) ∧
    (∀ fi ∈ (runRefs t d (runRefs t d store0 refs).1 refs).2,
      fi.status = "uptodate") ∧
    SQLDatabasePipeline.process_item (some u) commitOk db
        { item with files := (runRefs t d (runRefs t d store0 refs).1 refs).2 } =
      .ok (db, [],
        { item with
          files := (runRefs t d (runRefs t d store0 refs).1 refs).2 }) := by
  have hprobe := runRefs_probed t d refs store0 hwf
  have hrun2 := runRefs_all_found t d refs (runRefs t d store0 refs).1 hprobe
  refine ⟨by rw [hrun2], by rw [hrun2], ?_, ?_⟩
  · intro fi hfi
    rw [hrun2] at hfi
    simp only [List.mem_map] at hfi
    obtain ⟨r, hr, hfi⟩ := hfi
    rw [← hfi]
  · have hup : ∀ fi ∈ (runRefs t d (runRefs t d store0 refs).1 refs).2,
        fi.status = "uptodate" := by
      intro fi hfi
      rw [hrun2] at hfi
      simp only [List.mem_map] at hfi
      obtain ⟨r, hr, hfi⟩ := hfi
      rw [← hfi]
    have heq := process_item_sql_eq u commitOk db
      { item with files := (runRefs t d (runRefs t d store0 refs).1 refs).2 }
      dd sa hd hs
    have hfil1 : ({ item with
        files := (runRefs t d (runRefs t d store0 refs).1 refs).2 } : Item).files.filter
        (fun fi => !(fi.status == "uptodate") &&
          commitOk (SQLDatabasePipeline.mkGazette
            { item with files := (runRefs t d (runRefs t d store0 refs).1 refs).2 }
            dd sa fi)) = [] := by
      rw [List.filter_eq_nil_iff]
      intro fi hfi
      have := hup fi hfi
      simp [this]
    have hfil2 : ({ item with
        files := (runRefs t d (runRefs t d store0 refs).1 refs).2 } : Item).files.filter
        (fun fi => !(fi.status == "uptodate") &&
          !(commitOk (SQLDatabasePipeline.mkGazette
            { item with files := (runRefs t d (runRefs t d store0 refs).1 refs).2 }
            dd sa fi))) = [] := by
      rw [List.filter_eq_nil_iff]
      intro fi hfi
      have := hup fi hfi
      simp [this]
    rw [hfil1, hfil2] at heq
    simpa using heq

/-- Witness for C3 amended: concrete double run over one pdf reference with
no url extension starting from an empty store. -/
theorem claim_C3_amended_witness :
    (runRefs "X" "2024-01-05"
        (runRefs "X" "2024-01-05" []
          [⟨"http://example.com/doc", "abc123", none,
            [0x25, 0x50, 0x44, 0x46], "c0"⟩]).1
        [⟨"http://example.com/doc", "abc123", none,
          [0x25, 0x50, 0x44, 0x46], "c0"⟩]).1 =
      (runRefs "X" "2024-01-05" []
        [⟨"http://example.com/doc", "abc123", none,
          [0x25, 0x50, 0x44, 0x46], "c0"⟩]).1 ∧
    SQLDatabasePipeline.process_item (some "postgresql") (fun _ => true) []
        ⟨"s", "2024-01-05", "1", false, "executive",
          "2024-01-05T12:00:00.123456Z", "X",
          (runRefs "X" "2024-01-05"
            (runRefs "X" "2024-01-05" []
              [⟨"http://example.com/doc", "abc123", none,
                [0x25, 0x50, 0x44, 0x46], "c0"⟩]).1
            [⟨"http://example.com/doc", "abc123", none,
              [0x25, 0x50, 0x44, 0x46], "c0"⟩]).2⟩ =
      .ok ([], [],
        ⟨"s", "2024-01-05", "1", false, "executive",
          "2024-01-05T12:00:00.123456Z", "X",
          (runRefs "X" "2024-01-05"
            (runRefs "X" "2024-01-05" []
              [⟨"http://example.com/doc", "abc123", none,
                [0x25, 0x50, 0x44, 0x46], "c0"⟩]).1
            [⟨"http://example.com/doc", "abc123", none,
              [0x25, 0x50, 0x44, 0x46], "c0"⟩]).2⟩) := by
  have h := claim_C3_amended "X" "2024-01-05" "postgresql" (fun _ => true) []
    []
    ⟨"s", "2024-01-05", "1", false, "executive",
      "2024-01-05T12:00:00.123456Z", "X", []⟩
    [⟨"http://example.com/doc", "abc123", none,
      [0x25, 0x50, 0x44, 0x46], "c0"⟩]
    ⟨2024, 1, 5⟩ ⟨⟨2024, 1, 5⟩, 12, 0, 0, 123456⟩
    (by
      intro r hr
      simp only [List.mem_singleton] at hr
      subst hr
      exact ⟨by constructor <;> decide, fun e he => by cases he⟩)
    (by decide) (by decide)
  exact ⟨h.1, h.2.2.2⟩
